import Mathlib

/-!
Verification of the HVAC climate-data transform engine
(`scripts/ingest_transform.py`): raw-event loading, bronze normalization,
the indoor/outdoor temporal join with gap-tolerance and data-quality
tagging, comfort-flag derivation, daily aggregation and partitioned
persistence.

Conventions of the embedding:
* timestamps are natural numbers counting whole minutes since the epoch
  (the source parses ISO-8601 strings into a canonical datetime once, in
  the bronze step; everything downstream only compares and subtracts
  timestamps, so minutes-since-epoch is a faithful carrier);
* measurement values are rationals (the flag thresholds and averages are
  compared and combined exactly, never rounded through a binary float in
  any way a claim depends on);
* a pandas `NaN` entry is `Option.none`; a comparison against `NaN` is
  `false`, as in pandas;
* JSON parsing of one raw line either succeeds with a typed record or
  fails: a raw line is `Option SensorEvent` / `Option WeatherReading`;
* a DataFrame is a list of typed rows.  A missing measurement row of the
  resampled outdoor grid has every measurement column `NaN` at once, so
  the grid carries `Option WeatherReading` for its measurement columns.
-/

set_option autoImplicit false

namespace HVAC

/-- The four indoor sensor kinds produced by the indoor stream
(`sensor_type` values `temp`, `humidity`, `co2`, `voc`). -/
inductive SensorType where
  | temp
  | humidity
  | co2
  | voc
deriving DecidableEq, Repr

/-- One raw indoor measurement (one JSONL object of the indoor stream). -/
structure SensorEvent where
  event_id : ℕ
  ts_utc : ℕ
  building_id : String
  room_id : String
  sensor_type : SensorType
  value : ℚ
  unit : String
deriving DecidableEq, Repr

/-- One raw outdoor weather reading (one JSONL object of the outdoor
stream). -/
structure WeatherReading where
  ts_utc : ℕ
  latitude : ℚ
  longitude : ℚ
  temp_c : ℚ
  rel_humidity_pct : ℚ
  wind_speed_ms : ℚ
deriving DecidableEq, Repr

/-- A bronze indoor row: the raw event plus the ingestion stamp added by
`transform_to_bronze` (`_ingestion_timestamp`). -/
structure BronzeIndoorRow where
  event : SensorEvent
  ingestion_ts : ℕ
deriving DecidableEq, Repr

/-- A bronze outdoor row: the raw reading plus the ingestion stamp. -/
structure BronzeOutdoorRow where
  reading : WeatherReading
  ingestion_ts : ℕ
deriving DecidableEq, Repr

/-- Provenance tag of one 5-minute outdoor grid slot (`data_quality`
column): `actual` / `ffilled` / `missing` in the source (the design
documents spell the middle tag `forward_filled`). -/
inductive DataQuality where
  | actual
  | ffilled
  | missing
deriving DecidableEq, Repr

/-- `load_raw_indoor`: reads every line of every matched file; a line
that fails to parse as JSON is skipped with a logged warning
(a parse failure is a `none` line). -/
def load_raw_indoor (lines : List (Option SensorEvent)) : List SensorEvent :=
  lines.filterMap id

/-- `load_raw_outdoor`: same reader for the outdoor stream. -/
def load_raw_outdoor (lines : List (Option WeatherReading)) : List WeatherReading :=
  lines.filterMap id

/-- `transform_to_bronze` on the indoor stream: parse the timestamp
column (already canonical here), cast `event_id` to int and `value` to
float (identities on the typed carrier), and stamp the batch ingestion
time on every row.  No row is added or dropped. -/
def transform_to_bronze (rows : List SensorEvent) (ingestion_ts : ℕ) :
    List BronzeIndoorRow :=
  rows.map (fun e => ⟨e, ingestion_ts⟩)

/-- `transform_to_bronze` on the outdoor stream: the float casts of
`temp_c`, `rel_humidity_pct`, `wind_speed_ms` are identities on the
typed carrier; the ingestion stamp is added.  No row is added or
dropped. -/
def transform_to_bronze_outdoor (rows : List WeatherReading) (ingestion_ts : ℕ) :
    List BronzeOutdoorRow :=
  rows.map (fun r => ⟨r, ingestion_ts⟩)

/-! ### Comfort-flag thresholds and flag computation (source lines 16-18
and 194-204). -/

def OVERCOOLING_INDOOR_THRESHOLD : ℚ := 21

def OVERCOOLING_OUTDOOR_THRESHOLD : ℚ := 25

def STALE_AIR_CO2_THRESHOLD : ℚ := 1000

/-- Pandas semantics of `series < c` where the entry may be `NaN`: a
comparison against `NaN` yields `False`. -/
def naLt (x : Option ℚ) (c : ℚ) : Bool :=
  match x with
  | some v => decide (v < c)
  | none => false

/-- Pandas semantics of `series > c` where the entry may be `NaN`. -/
def naGt (x : Option ℚ) (c : ℚ) : Bool :=
  match x with
  | some v => decide (c < v)
  | none => false

/-- `overcooled_flag = (indoor_temp_c < 21) & (outdoor_temp_c > 25)`,
then `.fillna(False)` — a no-op, since the comparison already mapped
`NaN` entries to `False`. -/
def overcooled_flag (indoor_temp_c outdoor_temp_c : Option ℚ) : Bool :=
  naLt indoor_temp_c OVERCOOLING_INDOOR_THRESHOLD &&
    naGt outdoor_temp_c OVERCOOLING_OUTDOOR_THRESHOLD

/-- `stale_air_flag = (indoor_co2_ppm > 1000).fillna(False)`. -/
def stale_air_flag (indoor_co2_ppm : Option ℚ) : Bool :=
  naGt indoor_co2_ppm STALE_AIR_CO2_THRESHOLD

/-! ### Pivot of the indoor stream (source lines 141-156).

`pivot_table(index=[ts_utc, building_id, room_id], columns=sensor_type,
values=value, aggfunc=mean)`: one wide row per key, each sensor kind's
readings of the group averaged into its own column; the columns are then
renamed `indoor_temp_c`, `indoor_rel_humidity_pct`, `indoor_co2_ppm`,
`indoor_voc_ppb`. -/

/-- The pivot index of a bronze indoor row. -/
def pivotKey (r : BronzeIndoorRow) : ℕ × String × String :=
  (r.event.ts_utc, r.event.building_id, r.event.room_id)

/-- One pivoted indoor row: the key plus one `Option` column per sensor
kind (`NaN` where the group holds no reading of that kind). -/
structure IndoorPivotRow where
  ts_utc : ℕ
  building_id : String
  room_id : String
  indoor_temp_c : Option ℚ
  indoor_rel_humidity_pct : Option ℚ
  indoor_co2_ppm : Option ℚ
  indoor_voc_ppb : Option ℚ
deriving DecidableEq, Repr

/-- The pivot index of a pivoted row. -/
def rowKey (p : IndoorPivotRow) : ℕ × String × String :=
  (p.ts_utc, p.building_id, p.room_id)

/-- The values of one pivot cell: the `value` column of the rows of the
group `k` whose sensor kind is `st`. -/
def sensorValues (rows : List BronzeIndoorRow) (k : ℕ × String × String)
    (st : SensorType) : List ℚ :=
  (rows.filter
      (fun r => decide (pivotKey r = k) && decide (r.event.sensor_type = st))).map
    (fun r => r.event.value)

/-- `aggfunc=mean` of one pivot cell; an empty cell is `NaN`. -/
def meanQ (l : List ℚ) : Option ℚ :=
  if l.isEmpty then none else some (l.sum / (l.length : ℚ))

/-- One output row of the pivot at key `k`. -/
def pivotRow (rows : List BronzeIndoorRow) (k : ℕ × String × String) :
    IndoorPivotRow where
  ts_utc := k.1
  building_id := k.2.1
  room_id := k.2.2
  indoor_temp_c := meanQ (sensorValues rows k SensorType.temp)
  indoor_rel_humidity_pct := meanQ (sensorValues rows k SensorType.humidity)
  indoor_co2_ppm := meanQ (sensorValues rows k SensorType.co2)
  indoor_voc_ppb := meanQ (sensorValues rows k SensorType.voc)

/-- The pivot: one row per distinct key of the input.  (pandas emits the
keys sorted, this embedding in first-occurrence order; no property below
depends on row order.) -/
def pivotIndoor (rows : List BronzeIndoorRow) : List IndoorPivotRow :=
  ((rows.map pivotKey).dedup).map (pivotRow rows)

/-! ### Resampling of the outdoor stream onto the 5-minute grid
(source lines 162-177).

`set_index(ts_utc).resample(5min).asfreq()` builds the grid from the
smallest to the largest observed timestamp; a slot holds the reading
whose timestamp equals the slot time exactly, else `NaN` in every
measurement column at once.  The `data_quality` column starts `actual`,
slots with a `NaN` measurement are re-marked `missing`, `ffill(limit=3)`
copies the most recent prior reading across at most 3 consecutive empty
slots, and slots that gained a value that way are re-marked
`ffilled`. -/

/-- One slot of the resampled outdoor grid: the slot time, the
measurement columns (`none` = every measurement column `NaN`), and the
`data_quality` tag. -/
structure GridSlot where
  ts_utc : ℕ
  filled : Option WeatherReading
  data_quality : DataQuality
deriving DecidableEq, Repr

/-- The reading at an exact timestamp, if any. -/
def lookupReading (rs : List WeatherReading) (t : ℕ) : Option WeatherReading :=
  rs.find? (fun r => r.ts_utc == t)

/-- The most recent grid position `j ≤ i` with `i - j ≤ fuel` holding a
reading at its exact slot time `tmin + 5 * j`, together with that
reading: the lookback of `ffill(limit=fuel)`. -/
def findRecent (rs : List WeatherReading) (tmin : ℕ) :
    ℕ → ℕ → Option (ℕ × WeatherReading)
  | i, 0 => (lookupReading rs (tmin + 5 * i)).map (fun r => (i, r))
  | 0, _ + 1 => (lookupReading rs (tmin + 5 * 0)).map (fun r => ((0 : ℕ), r))
  | i2 + 1, fuel + 1 =>
    ((lookupReading rs (tmin + 5 * (i2 + 1))).map (fun r => (i2 + 1, r))).orElse
      (fun _ => findRecent rs tmin i2 fuel)

/-- The grid slot at position `i` after the whole tagging chain of
lines 163-173: a slot holding a reading at its exact time is `actual`
(`asfreq()` plus the first `data_quality` pass); a slot first marked
`missing` whose `ffill(limit=3)` lookback finds a reading within 3
prior positions takes that reading and is re-tagged `ffilled`; any
other slot stays `missing` with `NaN` measurements. -/
def ffillSlot (rs : List WeatherReading) (tmin i : ℕ) : GridSlot :=
  match lookupReading rs (tmin + 5 * i) with
  | some r => ⟨tmin + 5 * i, some r, DataQuality.actual⟩
  | none =>
    match findRecent rs tmin i 3 with
    | some (_, r) => ⟨tmin + 5 * i, some r, DataQuality.ffilled⟩
    | none => ⟨tmin + 5 * i, none, DataQuality.missing⟩

/-- First grid time: the smallest observed outdoor timestamp. -/
def gridStart (rs : List WeatherReading) : ℕ :=
  match rs with
  | [] => 0
  | r :: rest => (rest.map (fun x => x.ts_utc)).foldl min r.ts_utc

/-- Last grid time: the largest observed outdoor timestamp. -/
def gridStop (rs : List WeatherReading) : ℕ :=
  match rs with
  | [] => 0
  | r :: rest => (rest.map (fun x => x.ts_utc)).foldl max r.ts_utc

/-- Number of grid slots. -/
def gridLen (rs : List WeatherReading) : ℕ :=
  match rs with
  | [] => 0
  | _ :: _ => (gridStop rs - gridStart rs) / 5 + 1

/-- The resampled, quality-tagged outdoor grid. -/
def resampleOutdoor (rs : List WeatherReading) : List GridSlot :=
  match rs with
  | [] => []
  | _ :: _ => (List.range (gridLen rs)).map (fun i => ffillSlot rs (gridStart rs) i)

/-- Source lines 176-177: a non-fatal warning is printed when any slot
is still `missing` after the fill. -/
def gapWarning (slots : List GridSlot) : Bool :=
  slots.any (fun s => s.data_quality == DataQuality.missing)

/-! ### The tolerance-windowed nearest join (source lines 179-192).

`merge_asof` joins each pivoted indoor row against the column selection
`[ts_utc, temp_c, rel_humidity_pct, data_quality]` of the grid,
`direction=nearest`, `tolerance=15min`; an indoor row with no slot
within the window keeps `NaN` in every attached column — including
`data_quality`. -/

/-- The column selection of one grid slot passed into `merge_asof`. -/
structure OutdoorCols where
  ts_utc : ℕ
  temp_c : Option ℚ
  rel_humidity_pct : Option ℚ
  data_quality : DataQuality
deriving DecidableEq, Repr

/-- Project one grid slot onto the merged columns. -/
def slotCols (s : GridSlot) : OutdoorCols :=
  ⟨s.ts_utc, s.filled.map (fun r => r.temp_c),
    s.filled.map (fun r => r.rel_humidity_pct), s.data_quality⟩

/-- `outdoor_resampled[[ts_utc, temp_c, rel_humidity_pct,
data_quality]]`. -/
def selectOutdoorCols (slots : List GridSlot) : List OutdoorCols :=
  slots.map slotCols

/-- Distance between two timestamps in minutes. -/
def tsDist (a b : ℕ) : ℕ :=
  max a b - min a b

/-- One step of the nearest-within-tolerance scan: keep the running
best row, adopt a strictly closer one, and admit a first candidate only
inside the 15-minute window. -/
def nearestStep (t : ℕ) (acc : Option OutdoorCols) (s : OutdoorCols) :
    Option OutdoorCols :=
  match acc with
  | none => if tsDist s.ts_utc t ≤ 15 then some s else none
  | some b => if tsDist s.ts_utc t < tsDist b.ts_utc t then some s else some b

/-- The nearest grid row within the 15-minute tolerance window (the
earliest of equally distant rows; the grid spacing makes a tie
impossible for whole-minute indoor timestamps). -/
def nearestOutdoor (cols : List OutdoorCols) (t : ℕ) : Option OutdoorCols :=
  cols.foldl (nearestStep t) none

/-- One silver comfort row (`ComfortRecord`): the pivoted indoor
columns, the attached outdoor columns, the flags and the partition
date. -/
structure ComfortRecord where
  ts_utc : ℕ
  building_id : String
  room_id : String
  indoor_temp_c : Option ℚ
  indoor_rel_humidity_pct : Option ℚ
  indoor_co2_ppm : Option ℚ
  indoor_voc_ppb : Option ℚ
  outdoor_temp_c : Option ℚ
  outdoor_rel_humidity_pct : Option ℚ
  data_quality : Option DataQuality
  overcooled_flag : Bool
  stale_air_flag : Bool
  date : ℕ
deriving DecidableEq, Repr

/-- Attach the nearest tolerated outdoor row to one pivoted indoor row,
compute both flags and the partition date (`date = ts / 1440`, the UTC
calendar day of the indoor timestamp). -/
def attachOutdoor (cols : List OutdoorCols) (p : IndoorPivotRow) : ComfortRecord :=
  let m := nearestOutdoor cols p.ts_utc
  let otemp : Option ℚ := match m with
    | some s => s.temp_c
    | none => none
  let ohum : Option ℚ := match m with
    | some s => s.rel_humidity_pct
    | none => none
  { ts_utc := p.ts_utc
    building_id := p.building_id
    room_id := p.room_id
    indoor_temp_c := p.indoor_temp_c
    indoor_rel_humidity_pct := p.indoor_rel_humidity_pct
    indoor_co2_ppm := p.indoor_co2_ppm
    indoor_voc_ppb := p.indoor_voc_ppb
    outdoor_temp_c := otemp
    outdoor_rel_humidity_pct := ohum
    data_quality := m.map (fun s => s.data_quality)
    overcooled_flag := overcooled_flag p.indoor_temp_c otemp
    stale_air_flag := stale_air_flag p.indoor_co2_ppm
    date := p.ts_utc / 1440 }

/-- The Temporal Aligner, `join_and_compute_comfort`: empty-input guard,
pivot, resample, column selection, nearest join, flags, date tag. -/
def join_and_compute_comfort (indoor : List BronzeIndoorRow)
    (outdoor : List BronzeOutdoorRow) : List ComfortRecord :=
  if indoor.isEmpty || outdoor.isEmpty then []
  else
    let cols := selectOutdoorCols (resampleOutdoor (outdoor.map (fun b => b.reading)))
    (pivotIndoor indoor).map (attachOutdoor cols)

/-! ### Daily aggregation (source lines 213-249). -/

/-- One gold row (`DailyMetric`). -/
structure DailyMetric where
  date : ℕ
  building_id : String
  room_id : String
  n_readings : ℕ
  n_overcooled : ℕ
  n_stale_air : ℕ
  avg_indoor_temp : Option ℚ
  avg_indoor_humidity : Option ℚ
  avg_indoor_co2 : Option ℚ
  avg_outdoor_temp : Option ℚ
  pct_time_overcooled : ℚ
  pct_time_stale_air : ℚ
deriving DecidableEq, Repr

/-- The grouping key of the daily aggregation. -/
def gkey (c : ComfortRecord) : ℕ × String × String :=
  (c.date, c.building_id, c.room_id)

/-- Round to the nearest integer, ties to the even neighbour —
banker's rounding, the tie behaviour of numpy `around` and hence of
the DataFrame's `.round(...)`. -/
def roundHalfEven (x : ℚ) : ℤ :=
  if x - ⌊x⌋ < 1 / 2 then ⌊x⌋
  else if 1 / 2 < x - ⌊x⌋ then ⌊x⌋ + 1
  else if ⌊x⌋ % 2 = 0 then ⌊x⌋ else ⌊x⌋ + 1

/-- `.round(2)`: scale by 100, round half to even, scale back (e.g.
`3.125` rounds to `3.12`, `3.135` to `3.14`). -/
def round2 (q : ℚ) : ℚ :=
  ((roundHalfEven (q * 100) : ℤ) : ℚ) / 100

/-- The aggregated row of the group at key `k`: count, flag sums,
`NaN`-skipping means, and the two percentages rounded to 2 decimal
places. -/
def mkDaily (l : List ComfortRecord) (k : ℕ × String × String) : DailyMetric :=
  let g := l.filter (fun c => decide (gkey c = k))
  let n := g.length
  let novc := g.countP (fun c => c.overcooled_flag)
  let nst := g.countP (fun c => c.stale_air_flag)
  { date := k.1
    building_id := k.2.1
    room_id := k.2.2
    n_readings := n
    n_overcooled := novc
    n_stale_air := nst
    avg_indoor_temp := meanQ (g.filterMap (fun c => c.indoor_temp_c))
    avg_indoor_humidity := meanQ (g.filterMap (fun c => c.indoor_rel_humidity_pct))
    avg_indoor_co2 := meanQ (g.filterMap (fun c => c.indoor_co2_ppm))
    avg_outdoor_temp := meanQ (g.filterMap (fun c => c.outdoor_temp_c))
    pct_time_overcooled := round2 ((novc : ℚ) / (n : ℚ) * 100)
    pct_time_stale_air := round2 ((nst : ℚ) / (n : ℚ) * 100) }

/-- `compute_daily_metrics`: group by `(date, building_id, room_id)`
over the existing records and aggregate each group. -/
def compute_daily_metrics (l : List ComfortRecord) : List DailyMetric :=
  if l.isEmpty then [] else ((l.map gkey).dedup).map (mkDaily l)

/-! ### The partitioned writer (source lines 252-302) and the run driver
(source lines 305-354).

The writer receives the caller's DataFrame.  When it partitions by
`date` it assigns `df[date] = to_datetime(df[date])` and adds
`df[year]`, `df[month]`, `df[day]` — in place, on the caller's object;
only the per-partition copies drop the three helper columns again.  The
embedding therefore returns the post-call contents of the caller's
DataFrame next to the performed writes. -/

/-- The silver DataFrame as the writer sees it: the comfort columns
plus the three partition helper columns (absent before the first
partitioned write). -/
structure PComfortRow where
  row : ComfortRecord
  year : Option ℕ
  month : Option ℕ
  day : Option ℕ
deriving DecidableEq, Repr

/-- Civil calendar date `(year, month, day)` of a day count since
1970-01-01 — the value of `dt.year / dt.month / dt.day` used for the
partition path. -/
def civilFromDays (z0 : ℕ) : ℕ × ℕ × ℕ :=
  let z := z0 + 719468
  let era := z / 146097
  let doe := z % 146097
  let yoe := (doe - doe / 1460 + doe / 36524 - doe / 146096) / 365
  let y := yoe + era * 400
  let doy := doe - (365 * yoe + yoe / 4 - yoe / 100)
  let mp := (5 * doy + 2) / 153
  let d := doy - (153 * mp + 2) / 5 + 1
  let m := if mp < 10 then mp + 3 else mp - 9
  (if m ≤ 2 then y + 1 else y, m, d)

/-- Source lines 276-281: the in-place column assignments of the
partitioned write. -/
def addPartitionCols (r : PComfortRow) : PComfortRow :=
  let c := civilFromDays r.row.date
  { r with year := some c.1, month := some c.2.1, day := some c.2.2 }

/-- `write_partitioned_parquet`: returns the post-call contents of the
caller's DataFrame and the list of writes, one per partition directory
(`some (y, m, d)`) or one unpartitioned file (`none`), each with its
row count.  An empty DataFrame is skipped. -/
def write_partitioned_parquet (rows : List PComfortRow) (partition_by_date : Bool) :
    List PComfortRow × List (Option (ℕ × ℕ × ℕ) × ℕ) :=
  if rows.isEmpty then (rows, [])
  else if partition_by_date then
    let rows2 := rows.map addPartitionCols
    let keys := (rows2.map (fun r => civilFromDays r.row.date)).dedup
    (rows2,
      keys.map (fun k =>
        (some k, (rows2.filter (fun r => decide (civilFromDays r.row.date = k))).length)))
  else
    (rows, [(none, rows.length)])

/-- Source line 160: inside the aligner the outdoor frame's timestamp
column is re-assigned `pd.to_datetime(outdoor_df[ts_utc])` in place —
on a bronze frame the timestamps are already canonical, so the
assignment re-writes each with its own value. -/
def reparseOutdoorTs (outdoor : List WeatherReading) : List WeatherReading :=
  outdoor.map (fun r => { r with ts_utc := r.ts_utc })

/-- What a whole run produced: which layers were written, and the
in-memory silver and gold row sets. -/
structure RunResult where
  bronze_indoor_written : Bool
  bronze_outdoor_written : Bool
  silver_written : Bool
  gold_written : Bool
  comfort : List ComfortRecord
  daily : List DailyMetric
deriving Repr

/-- `run_pipeline_for_day`: load both raw streams, exit early when
either is empty (lines 324-326), else write bronze, align, write silver
when non-empty, aggregate, write gold when non-empty. -/
def run_pipeline_for_day (indoorLines : List (Option SensorEvent))
    (outdoorLines : List (Option WeatherReading)) (ingestion_ts : ℕ) : RunResult :=
  let raw_indoor := load_raw_indoor indoorLines
  let raw_outdoor := load_raw_outdoor outdoorLines
  if raw_indoor.isEmpty || raw_outdoor.isEmpty then
    ⟨false, false, false, false, [], []⟩
  else
    let bronze_indoor := transform_to_bronze raw_indoor ingestion_ts
    let bronze_outdoor := transform_to_bronze_outdoor raw_outdoor ingestion_ts
    let comfort := join_and_compute_comfort bronze_indoor bronze_outdoor
    let daily := if comfort.isEmpty then [] else compute_daily_metrics comfort
    ⟨!bronze_indoor.isEmpty, !bronze_outdoor.isEmpty,
      !comfort.isEmpty, !comfort.isEmpty && !daily.isEmpty, comfort, daily⟩

/-- Projection used to state that the join never consults latitude,
longitude, wind speed or the source tag of a reading. -/
def slimReading (r : WeatherReading) : ℕ × ℚ × ℚ :=
  (r.ts_utc, r.temp_c, r.rel_humidity_pct)

/-- The three outdoor columns the join attaches to a comfort row. -/
def outdoorJoinFields (c : ComfortRecord) : Option ℚ × Option ℚ × Option DataQuality :=
  (c.outdoor_temp_c, c.outdoor_rel_humidity_pct, c.data_quality)

/-- A concrete comfort row used as test data below. -/
def exampleComfortRecord : ComfortRecord :=
  ⟨0, "building_A", "office_1", some 22, some 45, some 800, some 150,
    some 10, some 60, some DataQuality.actual, false, false, 0⟩

/-- The writer-visible silver row for `exampleComfortRecord`, before any
partitioned write (no partition helper columns yet). -/
def examplePartRow : PComfortRow :=
  ⟨exampleComfortRecord, none, none, none⟩

/-! ## Helper lemmas -/

theorem length_filterMap_id_add_countP {α : Type} (l : List (Option α)) :
    (l.filterMap id).length + l.countP (fun o => o.isNone) = l.length := by
  induction l with
  | nil => rfl
  | cons a t ih =>
    cases a <;> simp [List.countP_cons] <;> omega

/-! ## Claim theorems -/

/-- Claim C1: for every joined comfort row, `overcooled_flag` is true iff
`indoor_temp_c < 21.0` and `outdoor_temp_c > 25.0` (strictly), and
`stale_air_flag` is true iff `indoor_co2_ppm > 1000`; a null input to a
flag makes that flag false rather than an error. -/
theorem comfort_flags_spec (it ot co2 : Option ℚ) :
    (overcooled_flag it ot = true ↔
      ∃ i o, it = some i ∧ ot = some o ∧ i < 21 ∧ 25 < o)
    ∧ (stale_air_flag co2 = true ↔ ∃ c, co2 = some c ∧ 1000 < c)
    ∧ overcooled_flag none ot = false
    ∧ overcooled_flag it none = false
    ∧ stale_air_flag none = false := by
  refine ⟨?_, ?_, ?_, ?_, rfl⟩
  · cases it with
    | none => simp [overcooled_flag, naLt]
    | some i =>
      cases ot with
      | none => simp [overcooled_flag, naLt, naGt]
      | some o =>
        simp [overcooled_flag, naLt, naGt,
          OVERCOOLING_INDOOR_THRESHOLD, OVERCOOLING_OUTDOOR_THRESHOLD]
  · cases co2 with
    | none => simp [stale_air_flag, naGt]
    | some c => simp [stale_air_flag, naGt, STALE_AIR_CO2_THRESHOLD]
  · simp [overcooled_flag, naLt]
  · simp [overcooled_flag, naGt]

theorem comfort_flags_spec_witness :
    overcooled_flag (some 19) (some 27) = true
    ∧ stale_air_flag (some 1100) = true
    ∧ overcooled_flag none (some 30) = false :=
  ⟨(comfort_flags_spec (some 19) (some 27) (some 1100)).1.mpr
      ⟨19, 27, rfl, rfl, by norm_num, by norm_num⟩,
    (comfort_flags_spec (some 19) (some 27) (some 1100)).2.1.mpr
      ⟨1100, rfl, by norm_num⟩,
    (comfort_flags_spec none (some 30) none).2.2.1⟩

/-- Claim C6: the bronze layer holds exactly one row per raw input line
minus exactly the lines that failed JSON parsing; the reader skips each
malformed line without aborting, keeps every parsed line, and the bronze
normalization itself is 1:1 (its rows are stamped copies of the raw
rows). -/
theorem bronze_row_count_spec (lines : List (Option SensorEvent))
    (wlines : List (Option WeatherReading)) (t : ℕ) :
    (load_raw_indoor lines).length = lines.length - lines.countP (fun o => o.isNone)
    ∧ (transform_to_bronze (load_raw_indoor lines) t).map (fun b => b.event)
        = load_raw_indoor lines
    ∧ (transform_to_bronze (load_raw_indoor lines) t).length
        = lines.length - lines.countP (fun o => o.isNone)
    ∧ (load_raw_outdoor wlines).length
        = wlines.length - wlines.countP (fun o => o.isNone)
    ∧ (transform_to_bronze_outdoor (load_raw_outdoor wlines) t).map (fun b => b.reading)
        = load_raw_outdoor wlines
    ∧ ∀ e : SensorEvent, some e ∈ lines → e ∈ load_raw_indoor lines := by
  have hlen := length_filterMap_id_add_countP lines
  have hwlen := length_filterMap_id_add_countP wlines
  refine ⟨?_, ?_, ?_, ?_, ?_, ?_⟩
  · unfold load_raw_indoor; omega
  · simp only [transform_to_bronze, List.map_map]
    exact List.map_id' _
  · simp only [transform_to_bronze, List.length_map]
    unfold load_raw_indoor; omega
  · unfold load_raw_outdoor; omega
  · simp only [transform_to_bronze_outdoor, List.map_map]
    exact List.map_id' _
  · intro e he
    unfold load_raw_indoor
    exact List.mem_filterMap.mpr ⟨some e, he, rfl⟩

theorem bronze_row_count_spec_witness :
    (load_raw_indoor
        [some ⟨1, 0, "building_A", "office_1", SensorType.temp, 22, "C"⟩, none]).length
      = ([some ⟨1, 0, "building_A", "office_1", SensorType.temp, (22 : ℚ), "C"⟩,
            none] : List (Option SensorEvent)).length
        - ([some ⟨1, 0, "building_A", "office_1", SensorType.temp, (22 : ℚ), "C"⟩,
            none] : List (Option SensorEvent)).countP (fun o => o.isNone) :=
  (bronze_row_count_spec
      [some ⟨1, 0, "building_A", "office_1", SensorType.temp, 22, "C"⟩, none] [] 0).1

/-- Claim C8: the Temporal Aligner (pivot, resample, join, flag and
date-tagging) reads no ambient state — no clock, no randomness — so it
denotes a function of its two bronze inputs: two runs on equal inputs
yield identical `ComfortRecord` lists. -/
theorem aligner_deterministic (i1 i2 : List BronzeIndoorRow)
    (o1 o2 : List BronzeOutdoorRow) (hi : i1 = i2) (ho : o1 = o2) :
    join_and_compute_comfort i1 o1 = join_and_compute_comfort i2 o2 := by
  rw [hi, ho]

theorem aligner_deterministic_witness :
    join_and_compute_comfort
        [⟨⟨1, 0, "building_A", "office_1", SensorType.temp, 22, "C"⟩, 7⟩]
        [⟨⟨0, 59, 18, 10, 60, 3⟩, 7⟩]
      = join_and_compute_comfort
        [⟨⟨1, 0, "building_A", "office_1", SensorType.temp, 22, "C"⟩, 7⟩]
        [⟨⟨0, 59, 18, 10, 60, 3⟩, 7⟩] :=
  aligner_deterministic _ _ _ _ rfl rfl

/-- Claim C4: when either bronze side is empty the Temporal Aligner
takes the guarded `EmptyInputError` path — it produces no comfort rows
and the run exits early without writing silver or gold partitions (the
source surfaces the condition as a logged warning plus an early return
rather than a raised exception; §7 of the design names this taxonomy
entry `EmptyInputError`, "surfaced to the caller as a non-fatal early
exit"). -/
theorem empty_input_early_exit (indoorLines : List (Option SensorEvent))
    (outdoorLines : List (Option WeatherReading)) (t : ℕ)
    (h : transform_to_bronze (load_raw_indoor indoorLines) t = []
        ∨ transform_to_bronze_outdoor (load_raw_outdoor outdoorLines) t = []) :
    join_and_compute_comfort (transform_to_bronze (load_raw_indoor indoorLines) t)
        (transform_to_bronze_outdoor (load_raw_outdoor outdoorLines) t) = []
    ∧ (run_pipeline_for_day indoorLines outdoorLines t).silver_written = false
    ∧ (run_pipeline_for_day indoorLines outdoorLines t).gold_written = false := by
  have hraw : load_raw_indoor indoorLines = [] ∨ load_raw_outdoor outdoorLines = [] := by
    rcases h with h | h
    · left
      exact List.map_eq_nil_iff.mp h
    · right
      exact List.map_eq_nil_iff.mp h
  constructor
  · rcases h with h | h <;> simp [join_and_compute_comfort, h]
  · rcases hraw with h | h <;>
      simp [run_pipeline_for_day, h]

theorem empty_input_early_exit_witness :
    (transform_to_bronze (load_raw_indoor [none]) 0 = []
      ∨ transform_to_bronze_outdoor (load_raw_outdoor [some ⟨0, 59, 18, 10, 60, 3⟩]) 0 = [])
    ∧ join_and_compute_comfort (transform_to_bronze (load_raw_indoor [none]) 0)
        (transform_to_bronze_outdoor (load_raw_outdoor [some ⟨0, 59, 18, 10, 60, 3⟩]) 0) = []
    ∧ (run_pipeline_for_day [none] [some ⟨0, 59, 18, 10, 60, 3⟩] 0).silver_written = false :=
  ⟨Or.inl rfl,
    (empty_input_early_exit [none] [some ⟨0, 59, 18, 10, 60, 3⟩] 0 (Or.inl rfl)).1,
    (empty_input_early_exit [none] [some ⟨0, 59, 18, 10, 60, 3⟩] 0 (Or.inl rfl)).2.1⟩

theorem map_eq_of_funext {α β : Type} {f g : α → β} (h : ∀ a, f a = g a)
    (l : List α) : l.map f = l.map g := by
  have hfg : f = g := funext h
  rw [hfg]

theorem compute_daily_metrics_eq (l : List ComfortRecord) :
    compute_daily_metrics l = ((l.map gkey).dedup).map (mkDaily l) := by
  unfold compute_daily_metrics
  split
  · rename_i h
    have hnil : l = [] := List.isEmpty_iff.mp h
    subst hnil
    rfl
  · rfl

theorem mkDaily_key (l : List ComfortRecord) (k : ℕ × String × String) :
    ((mkDaily l k).date, (mkDaily l k).building_id, (mkDaily l k).room_id) = k := by
  obtain ⟨a, b, c⟩ := k
  rfl

/-- Claim C5: daily aggregation emits exactly one row per
`(date, building, room)` key present in its input and none for absent
keys, so no emitted group is empty; `n_readings` is the group size,
`n_overcooled` / `n_stale_air` are the flag sums (hence bounded by
`n_readings`), and each percentage field is
`round(100 * count / n_readings, 2)`, rounding half to even as numpy
`.round` does. -/
theorem daily_metrics_spec (l : List ComfortRecord) :
    ((compute_daily_metrics l).map (fun m => (m.date, m.building_id, m.room_id))
        = (l.map gkey).dedup)
    ∧ ((compute_daily_metrics l).map (fun m => (m.date, m.building_id, m.room_id))).Nodup
    ∧ ∀ m ∈ compute_daily_metrics l,
        0 < m.n_readings
        ∧ m.n_readings
            = (l.filter (fun c => decide (gkey c = (m.date, m.building_id, m.room_id)))).length
        ∧ m.n_overcooled
            = (l.filter (fun c => decide (gkey c = (m.date, m.building_id, m.room_id)))).countP
                (fun c => c.overcooled_flag)
        ∧ m.n_stale_air
            = (l.filter (fun c => decide (gkey c = (m.date, m.building_id, m.room_id)))).countP
                (fun c => c.stale_air_flag)
        ∧ m.n_overcooled ≤ m.n_readings
        ∧ m.n_stale_air ≤ m.n_readings
        ∧ m.pct_time_overcooled
            = round2 (100 * (m.n_overcooled : ℚ) / (m.n_readings : ℚ))
        ∧ m.pct_time_stale_air
            = round2 (100 * (m.n_stale_air : ℚ) / (m.n_readings : ℚ)) := by
  have hmap : (compute_daily_metrics l).map (fun m => (m.date, m.building_id, m.room_id))
      = (l.map gkey).dedup := by
    rw [compute_daily_metrics_eq, List.map_map]
    have hpt : ∀ k : ℕ × String × String,
        ((fun m => (m.date, m.building_id, m.room_id)) ∘ mkDaily l) k = id k := by
      intro k
      exact mkDaily_key l k
    rw [map_eq_of_funext hpt, List.map_id]
  refine ⟨hmap, ?_, ?_⟩
  · rw [hmap]
    exact List.nodup_dedup _
  · intro m hm
    rw [compute_daily_metrics_eq] at hm
    obtain ⟨k, hk, rfl⟩ := List.mem_map.mp hm
    rw [mkDaily_key l k]
    have hpos : 0 < (l.filter (fun c => decide (gkey c = k))).length := by
      obtain ⟨c, hc, hgk⟩ := List.mem_map.mp (List.mem_dedup.mp hk)
      have hcf : c ∈ l.filter (fun c => decide (gkey c = k)) :=
        List.mem_filter.mpr ⟨hc, by simp [hgk]⟩
      exact List.length_pos.mpr (List.ne_nil_of_mem hcf)
    refine ⟨hpos, rfl, rfl, rfl, ?_, ?_, ?_, ?_⟩
    · exact List.countP_le_length _
    · exact List.countP_le_length _
    · have hp : (mkDaily l k).pct_time_overcooled
          = round2 (((mkDaily l k).n_overcooled : ℚ)
              / ((mkDaily l k).n_readings : ℚ) * 100) := rfl
      rw [hp]
      congr 1
      ring
    · have hp : (mkDaily l k).pct_time_stale_air
          = round2 (((mkDaily l k).n_stale_air : ℚ)
              / ((mkDaily l k).n_readings : ℚ) * 100) := rfl
      rw [hp]
      congr 1
      ring

theorem daily_metrics_spec_witness :
    (compute_daily_metrics
        [⟨0, "building_A", "office_1", some 22, some 45, some 800, some 150,
            some 10, some 60, some DataQuality.actual, false, false, 0⟩]).map
        (fun m => (m.date, m.building_id, m.room_id))
      = (([⟨0, "building_A", "office_1", some 22, some 45, some 800, some 150,
            some 10, some 60, some DataQuality.actual, false, false, 0⟩] :
          List ComfortRecord).map gkey).dedup
    ∧ round2 (100 * 1 / 32) = 312 / 100
    ∧ round2 (627 / 200) = 314 / 100 :=
  ⟨(daily_metrics_spec
      [⟨0, "building_A", "office_1", some 22, some 45, some 800, some 150,
          some 10, some 60, some DataQuality.actual, false, false, 0⟩]).1,
    by norm_num [round2, roundHalfEven],
    by norm_num [round2, roundHalfEven]⟩

theorem pivotRow_key (rows : List BronzeIndoorRow) (k : ℕ × String × String) :
    rowKey (pivotRow rows k) = k := by
  obtain ⟨a, b, c⟩ := k
  rfl

/-- Claim C7: the pivot groups indoor rows by
`(timestamp, building, room)` — one output row per key present in the
input — and fills each of the four named sensor columns with the mean of
the group's readings of that sensor kind (duplicate reports of one kind
are averaged; a kind with no reading in the group is null). -/
theorem pivot_spec (rows : List BronzeIndoorRow) :
    ((pivotIndoor rows).map rowKey = (rows.map pivotKey).dedup)
    ∧ ((pivotIndoor rows).map rowKey).Nodup
    ∧ (∀ r ∈ rows, pivotKey r ∈ (pivotIndoor rows).map rowKey)
    ∧ (∀ p ∈ pivotIndoor rows,
        p.indoor_temp_c = meanQ (sensorValues rows (rowKey p) SensorType.temp)
        ∧ p.indoor_rel_humidity_pct
            = meanQ (sensorValues rows (rowKey p) SensorType.humidity)
        ∧ p.indoor_co2_ppm = meanQ (sensorValues rows (rowKey p) SensorType.co2)
        ∧ p.indoor_voc_ppb = meanQ (sensorValues rows (rowKey p) SensorType.voc))
    ∧ ∀ vals : List ℚ,
        meanQ vals = if vals.length = 0 then none
          else some (vals.sum / (vals.length : ℚ)) := by
  have hmap : (pivotIndoor rows).map rowKey = (rows.map pivotKey).dedup := by
    unfold pivotIndoor
    rw [List.map_map]
    have hpt : ∀ k : ℕ × String × String, (rowKey ∘ pivotRow rows) k = id k := by
      intro k
      exact pivotRow_key rows k
    rw [map_eq_of_funext hpt, List.map_id]
  refine ⟨hmap, ?_, ?_, ?_, ?_⟩
  · rw [hmap]
    exact List.nodup_dedup _
  · intro r hr
    rw [hmap]
    exact List.mem_dedup.mpr (List.mem_map_of_mem _ hr)
  · intro p hp
    unfold pivotIndoor at hp
    obtain ⟨k, hk, rfl⟩ := List.mem_map.mp hp
    rw [pivotRow_key rows k]
    exact ⟨rfl, rfl, rfl, rfl⟩
  · intro vals
    cases vals <;> simp [meanQ]

theorem pivot_spec_witness :
    (pivotIndoor [⟨⟨1, 0, "building_A", "office_1", SensorType.temp, 22, "C"⟩, 7⟩,
        ⟨⟨2, 0, "building_A", "office_1", SensorType.temp, 24, "C"⟩, 7⟩]).map rowKey
      = (([⟨⟨1, 0, "building_A", "office_1", SensorType.temp, 22, "C"⟩, 7⟩,
          ⟨⟨2, 0, "building_A", "office_1", SensorType.temp, 24, "C"⟩, 7⟩] :
            List BronzeIndoorRow).map pivotKey).dedup :=
  (pivot_spec [⟨⟨1, 0, "building_A", "office_1", SensorType.temp, 22, "C"⟩, 7⟩,
      ⟨⟨2, 0, "building_A", "office_1", SensorType.temp, 24, "C"⟩, 7⟩]).1

theorem findRecent_fuel_zero (rs : List WeatherReading) (tmin i : ℕ) :
    findRecent rs tmin i 0
      = (lookupReading rs (tmin + 5 * i)).map (fun r => (i, r)) := by
  cases i with
  | zero => rfl
  | succ i2 => rfl

theorem findRecent_pos_zero (rs : List WeatherReading) (tmin fuel : ℕ) :
    findRecent rs tmin 0 (fuel + 1)
      = (lookupReading rs (tmin + 5 * 0)).map (fun r => ((0 : ℕ), r)) := rfl

theorem findRecent_pos_succ (rs : List WeatherReading) (tmin i2 fuel : ℕ) :
    findRecent rs tmin (i2 + 1) (fuel + 1)
      = ((lookupReading rs (tmin + 5 * (i2 + 1))).map (fun r => (i2 + 1, r))).orElse
          (fun _ => findRecent rs tmin i2 fuel) := rfl

theorem findRecent_eq_some (rs : List WeatherReading) (tmin : ℕ) :
    ∀ fuel i j r, findRecent rs tmin i fuel = some (j, r) →
      j ≤ i ∧ i ≤ j + fuel ∧ lookupReading rs (tmin + 5 * j) = some r
        ∧ ∀ k, j < k → k ≤ i → lookupReading rs (tmin + 5 * k) = none := by
  intro fuel
  induction fuel with
  | zero =>
    intro i j r h
    rw [findRecent_fuel_zero] at h
    cases hl : lookupReading rs (tmin + 5 * i) with
    | some r2 =>
      rw [hl] at h
      have h3 : i = j ∧ r2 = r := by simpa using h
      obtain ⟨rfl, rfl⟩ := h3
      exact ⟨le_refl _, by omega, hl, by intro k h1 h2; omega⟩
    | none =>
      rw [hl] at h
      exact Option.noConfusion h
  | succ f ih =>
    intro i j r h
    cases i with
    | zero =>
      rw [findRecent_pos_zero] at h
      cases hl : lookupReading rs (tmin + 5 * 0) with
      | some r2 =>
        rw [hl] at h
        have h3 : 0 = j ∧ r2 = r := by simpa using h
        obtain ⟨h0, rfl⟩ := h3
        subst h0
        exact ⟨le_refl _, by omega, hl, by intro k h1 h2; omega⟩
      | none =>
        rw [hl] at h
        exact Option.noConfusion h
    | succ i2 =>
      rw [findRecent_pos_succ] at h
      cases hl : lookupReading rs (tmin + 5 * (i2 + 1)) with
      | some r2 =>
        rw [hl] at h
        have h3 : i2 + 1 = j ∧ r2 = r := by simpa using h
        obtain ⟨h0, rfl⟩ := h3
        subst h0
        exact ⟨le_refl _, by omega, hl, by intro k h1 h2; omega⟩
      | none =>
        rw [hl] at h
        simp only [Option.map_none', Option.none_orElse] at h
        obtain ⟨h1, h2, h3, h4⟩ := ih i2 j r h
        refine ⟨by omega, by omega, h3, ?_⟩
        intro k hk1 hk2
        by_cases hk : k = i2 + 1
        · subst hk
          exact hl
        · exact h4 k hk1 (by omega)

theorem findRecent_eq_none (rs : List WeatherReading) (tmin : ℕ) :
    ∀ fuel i, findRecent rs tmin i fuel = none →
      ∀ k, k ≤ i → i ≤ k + fuel → lookupReading rs (tmin + 5 * k) = none := by
  intro fuel
  induction fuel with
  | zero =>
    intro i h k hk1 hk2
    have hki : k = i := by omega
    subst hki
    rw [findRecent_fuel_zero] at h
    cases hl : lookupReading rs (tmin + 5 * k) with
    | some r =>
      rw [hl] at h
      exact Option.noConfusion h
    | none => rfl
  | succ f ih =>
    intro i h k hk1 hk2
    cases i with
    | zero =>
      rw [findRecent_pos_zero] at h
      have hk0 : k = 0 := by omega
      subst hk0
      cases hl : lookupReading rs (tmin + 5 * 0) with
      | some r =>
        rw [hl] at h
        exact Option.noConfusion h
      | none => rfl
    | succ i2 =>
      rw [findRecent_pos_succ] at h
      cases hl : lookupReading rs (tmin + 5 * (i2 + 1)) with
      | some r =>
        rw [hl] at h
        exact Option.noConfusion h
      | none =>
        simp only [hl, Option.map_none', Option.none_orElse] at h
        by_cases hk : k = i2 + 1
        · subst hk
          exact hl
        · exact ih i2 h k (by omega) (by omega)

/-- Claim C2: on the resampled 5-minute outdoor grid, a slot tagged
`actual` holds exactly the raw reading at its slot time; a slot tagged
`ffilled` (the spec's `forward_filled`) holds no reading of its own and
copies the most recent prior slot with a reading, at most 3 positions
(15 minutes) back; a slot tagged `missing` has null measurement fields
and no reading exists within that lookback; and the non-fatal gap
warning fires exactly when some slot is `missing`.  The two hypotheses
state the well-formedness under which the pandas resample is this
embedding: grid-aligned and duplicate-free outdoor timestamps. -/
theorem resample_grid_spec (rs : List WeatherReading)
    (h5 : ∀ r ∈ rs, 5 ∣ r.ts_utc)
    (hnodup : (rs.map (fun r => r.ts_utc)).Nodup) :
    (gapWarning (resampleOutdoor rs) = true ↔
      ∃ s ∈ resampleOutdoor rs, s.data_quality = DataQuality.missing)
    ∧ ∀ i, ∀ hi : i < (resampleOutdoor rs).length, ∀ s,
        (resampleOutdoor rs).get ⟨i, hi⟩ = s →
        s.ts_utc = gridStart rs + 5 * i
        ∧ (s.data_quality = DataQuality.actual →
            s.filled ≠ none ∧ lookupReading rs s.ts_utc = s.filled)
        ∧ (s.data_quality = DataQuality.ffilled →
            lookupReading rs s.ts_utc = none
            ∧ ∃ j, j < i ∧ i ≤ j + 3
                ∧ s.filled ≠ none
                ∧ lookupReading rs (gridStart rs + 5 * j) = s.filled
                ∧ ∀ k, j < k → k ≤ i → lookupReading rs (gridStart rs + 5 * k) = none)
        ∧ (s.data_quality = DataQuality.missing →
            s.filled = none
            ∧ ∀ k, k ≤ i → i ≤ k + 3 →
                lookupReading rs (gridStart rs + 5 * k) = none) := by
  constructor
  · simp [gapWarning, List.any_eq_true]
  · intro i hi s hs
    cases rs with
    | nil => simp [resampleOutdoor] at hi
    | cons a l =>
      have hfs : s = ffillSlot (a :: l) (gridStart (a :: l)) i := by
        rw [← hs]
        simp [resampleOutdoor]
      cases hl : lookupReading (a :: l) (gridStart (a :: l) + 5 * i) with
      | some r =>
        have hs2 : s = ⟨gridStart (a :: l) + 5 * i, some r, DataQuality.actual⟩ := by
          rw [hfs]
          simp [ffillSlot, hl]
        subst hs2
        refine ⟨rfl, ?_, ?_, ?_⟩
        · intro _
          exact ⟨by simp, hl⟩
        · intro hq
          exact DataQuality.noConfusion hq
        · intro hq
          exact DataQuality.noConfusion hq
      | none =>
        cases hf : findRecent (a :: l) (gridStart (a :: l)) i 3 with
        | some jr =>
          obtain ⟨j, r⟩ := jr
          have hs2 : s = ⟨gridStart (a :: l) + 5 * i, some r, DataQuality.ffilled⟩ := by
            rw [hfs]
            simp [ffillSlot, hl, hf]
          subst hs2
          obtain ⟨h1, h2, h3, h4⟩ :=
            findRecent_eq_some (a :: l) (gridStart (a :: l)) 3 i j r hf
          have hji : j ≠ i := by
            intro he
            subst he
            rw [hl] at h3
            exact Option.noConfusion h3
          refine ⟨rfl, ?_, ?_, ?_⟩
          · intro hq
            exact DataQuality.noConfusion hq
          · intro _
            exact ⟨hl, j, by omega, by omega, by simp, h3, h4⟩
          · intro hq
            exact DataQuality.noConfusion hq
        | none =>
          have hs2 : s = ⟨gridStart (a :: l) + 5 * i, none, DataQuality.missing⟩ := by
            rw [hfs]
            simp [ffillSlot, hl, hf]
          subst hs2
          refine ⟨rfl, ?_, ?_, ?_⟩
          · intro hq
            exact DataQuality.noConfusion hq
          · intro hq
            exact DataQuality.noConfusion hq
          · intro _
            exact ⟨rfl, fun k hk1 hk2 =>
              findRecent_eq_none (a :: l) (gridStart (a :: l)) 3 i hf k hk1 hk2⟩

theorem resample_grid_spec_witness :
    (∀ r ∈ [(⟨0, 59, 18, 10, 60, 3⟩ : WeatherReading), ⟨10, 59, 18, 12, 61, 3⟩],
        5 ∣ r.ts_utc)
    ∧ (([(⟨0, 59, 18, 10, 60, 3⟩ : WeatherReading), ⟨10, 59, 18, 12, 61, 3⟩].map
          (fun r => r.ts_utc)).Nodup)
    ∧ (gapWarning (resampleOutdoor
          [⟨0, 59, 18, 10, 60, 3⟩, ⟨10, 59, 18, 12, 61, 3⟩]) = true ↔
        ∃ s ∈ resampleOutdoor [⟨0, 59, 18, 10, 60, 3⟩, ⟨10, 59, 18, 12, 61, 3⟩],
          s.data_quality = DataQuality.missing) :=
  ⟨by decide, by decide,
    (resample_grid_spec [⟨0, 59, 18, 10, 60, 3⟩, ⟨10, 59, 18, 12, 61, 3⟩]
        (by decide) (by decide)).1⟩

theorem foldl_nearest_isSome (t : ℕ) :
    ∀ (cols : List OutdoorCols) (b : OutdoorCols),
      (cols.foldl (nearestStep t) (some b)).isSome = true := by
  intro cols
  induction cols with
  | nil => intro b; rfl
  | cons c cs ih =>
    intro b
    rw [List.foldl_cons]
    have hstep : nearestStep t (some b) c
        = if tsDist c.ts_utc t < tsDist b.ts_utc t then some c else some b := rfl
    rw [hstep]
    by_cases hlt : tsDist c.ts_utc t < tsDist b.ts_utc t
    · rw [if_pos hlt]
      exact ih c
    · rw [if_neg hlt]
      exact ih b

theorem foldl_nearest_some (t : ℕ) :
    ∀ (cols : List OutdoorCols) (b s : OutdoorCols),
      tsDist b.ts_utc t ≤ 15 →
      cols.foldl (nearestStep t) (some b) = some s →
      tsDist s.ts_utc t ≤ tsDist b.ts_utc t ∧ tsDist s.ts_utc t ≤ 15
        ∧ (s = b ∨ s ∈ cols)
        ∧ ∀ c ∈ cols, tsDist s.ts_utc t ≤ tsDist c.ts_utc t := by
  intro cols
  induction cols with
  | nil =>
    intro b s hb h
    rw [List.foldl_nil] at h
    obtain rfl : b = s := by simpa using h
    exact ⟨le_refl _, hb, Or.inl rfl, by intro c hc; cases hc⟩
  | cons c cs ih =>
    intro b s hb h
    rw [List.foldl_cons] at h
    have hstep : nearestStep t (some b) c
        = if tsDist c.ts_utc t < tsDist b.ts_utc t then some c else some b := rfl
    rw [hstep] at h
    by_cases hlt : tsDist c.ts_utc t < tsDist b.ts_utc t
    · rw [if_pos hlt] at h
      have hc15 : tsDist c.ts_utc t ≤ 15 := le_trans (le_of_lt hlt) hb
      obtain ⟨h1, h2, h3, h4⟩ := ih c s hc15 h
      refine ⟨le_trans h1 (le_of_lt hlt), h2, ?_, ?_⟩
      · rcases h3 with rfl | hmem
        · exact Or.inr (List.mem_cons_self _ _)
        · exact Or.inr (List.mem_cons_of_mem _ hmem)
      · intro d hd
        rcases List.mem_cons.mp hd with rfl | hdm
        · exact h1
        · exact h4 d hdm
    · rw [if_neg hlt] at h
      obtain ⟨h1, h2, h3, h4⟩ := ih b s hb h
      refine ⟨h1, h2, ?_, ?_⟩
      · rcases h3 with rfl | hmem
        · exact Or.inl rfl
        · exact Or.inr (List.mem_cons_of_mem _ hmem)
      · intro d hd
        rcases List.mem_cons.mp hd with rfl | hdm
        · exact le_trans h1 (not_lt.mp hlt)
        · exact h4 d hdm

theorem nearestOutdoor_eq_some (t : ℕ) :
    ∀ (cols : List OutdoorCols) (s : OutdoorCols),
      nearestOutdoor cols t = some s →
      s ∈ cols ∧ tsDist s.ts_utc t ≤ 15
        ∧ ∀ c ∈ cols, tsDist s.ts_utc t ≤ tsDist c.ts_utc t := by
  intro cols
  induction cols with
  | nil =>
    intro s h
    exact Option.noConfusion h
  | cons c cs ih =>
    intro s h
    unfold nearestOutdoor at h
    rw [List.foldl_cons] at h
    have hstep : nearestStep t none c
        = if tsDist c.ts_utc t ≤ 15 then some c else none := rfl
    rw [hstep] at h
    by_cases h15 : tsDist c.ts_utc t ≤ 15
    · rw [if_pos h15] at h
      obtain ⟨h1, h2, h3, h4⟩ := foldl_nearest_some t cs c s h15 h
      refine ⟨?_, h2, ?_⟩
      · rcases h3 with rfl | hm
        · exact List.mem_cons_self _ _
        · exact List.mem_cons_of_mem _ hm
      · intro d hd
        rcases List.mem_cons.mp hd with rfl | hdm
        · exact h1
        · exact h4 d hdm
    · rw [if_neg h15] at h
      obtain ⟨h1, h2, h3⟩ := ih s (by unfold nearestOutdoor; exact h)
      refine ⟨List.mem_cons_of_mem _ h1, h2, ?_⟩
      intro d hd
      rcases List.mem_cons.mp hd with rfl | hdm
      · exact le_trans h2 (le_of_lt (not_le.mp h15))
      · exact h3 d hdm

theorem nearestOutdoor_eq_none (t : ℕ) :
    ∀ cols : List OutdoorCols, nearestOutdoor cols t = none →
      ∀ c ∈ cols, 15 < tsDist c.ts_utc t := by
  intro cols
  induction cols with
  | nil =>
    intro _ c hc
    cases hc
  | cons c cs ih =>
    intro h d hd
    unfold nearestOutdoor at h
    rw [List.foldl_cons] at h
    have hstep : nearestStep t none c
        = if tsDist c.ts_utc t ≤ 15 then some c else none := rfl
    rw [hstep] at h
    by_cases h15 : tsDist c.ts_utc t ≤ 15
    · rw [if_pos h15] at h
      have hsome := foldl_nearest_isSome t cs c
      rw [h] at hsome
      exact absurd hsome (by simp)
    · rw [if_neg h15] at h
      rcases List.mem_cons.mp hd with rfl | hdm
      · exact not_le.mp h15
      · exact ih (by unfold nearestOutdoor; exact h) d hdm

/-- Claim C3, amended: every pivoted indoor row is joined with the
nearest outdoor grid row whose timestamp lies within ±15 minutes,
taking its temperature, humidity and quality tag; when no grid row lies
within the window, the outdoor fields are null and the join quality tag
is itself null (`merge_asof` leaves the unmatched right-hand columns —
`data_quality` included — as `NaN`), not the value `missing`. -/
theorem join_tolerance_spec (cols : List OutdoorCols) (p : IndoorPivotRow) :
    (attachOutdoor cols p).ts_utc = p.ts_utc
    ∧ (∀ s, nearestOutdoor cols p.ts_utc = some s →
        s ∈ cols ∧ tsDist s.ts_utc p.ts_utc ≤ 15
        ∧ (∀ c ∈ cols, tsDist s.ts_utc p.ts_utc ≤ tsDist c.ts_utc p.ts_utc)
        ∧ (attachOutdoor cols p).outdoor_temp_c = s.temp_c
        ∧ (attachOutdoor cols p).outdoor_rel_humidity_pct = s.rel_humidity_pct
        ∧ (attachOutdoor cols p).data_quality = some s.data_quality)
    ∧ (nearestOutdoor cols p.ts_utc = none →
        (∀ c ∈ cols, 15 < tsDist c.ts_utc p.ts_utc)
        ∧ (attachOutdoor cols p).outdoor_temp_c = none
        ∧ (attachOutdoor cols p).outdoor_rel_humidity_pct = none
        ∧ (attachOutdoor cols p).data_quality = none) := by
  refine ⟨rfl, ?_, ?_⟩
  · intro s h
    obtain ⟨h1, h2, h3⟩ := nearestOutdoor_eq_some p.ts_utc cols s h
    refine ⟨h1, h2, h3, ?_, ?_, ?_⟩ <;> simp [attachOutdoor, h]
  · intro h
    refine ⟨nearestOutdoor_eq_none p.ts_utc cols h, ?_, ?_, ?_⟩ <;>
      simp [attachOutdoor, h]

theorem join_tolerance_spec_witness :
    (attachOutdoor [⟨0, some 10, some 60, DataQuality.actual⟩]
        ⟨0, "building_A", "office_1", some 22, some 45, some 800, some 150⟩).ts_utc
      = (⟨0, "building_A", "office_1", some 22, some 45, some 800, some 150⟩ :
          IndoorPivotRow).ts_utc :=
  (join_tolerance_spec [⟨0, some 10, some 60, DataQuality.actual⟩]
      ⟨0, "building_A", "office_1", some 22, some 45, some 800, some 150⟩).1

/-- Claim C3 counterexample: one outdoor reading at minute 0 and one
pivoted indoor row at minute 100 — no grid slot within ±15 minutes.
The joined row's quality tag is `NaN` (null), not the value `missing`
the claim asserts. -/
theorem join_missing_tag_counterexample :
    (∀ c ∈ selectOutdoorCols (resampleOutdoor [⟨0, 59, 18, 10, 60, 3⟩]),
        15 < tsDist c.ts_utc 100)
    ∧ (attachOutdoor (selectOutdoorCols (resampleOutdoor [⟨0, 59, 18, 10, 60, 3⟩]))
          ⟨100, "building_A", "office_1", some 22, some 45, some 800,
            some 150⟩).data_quality
        ≠ some DataQuality.missing
    ∧ (attachOutdoor (selectOutdoorCols (resampleOutdoor [⟨0, 59, 18, 10, 60, 3⟩]))
          ⟨100, "building_A", "office_1", some 22, some 45, some 800,
            some 150⟩).data_quality
        = none := ⟨by decide, by decide, by decide⟩

theorem lookupReading_nil (t : ℕ) : lookupReading [] t = none := rfl

theorem lookupReading_cons (a : WeatherReading) (l : List WeatherReading) (t : ℕ) :
    lookupReading (a :: l) t
      = if a.ts_utc = t then some a else lookupReading l t := by
  unfold lookupReading
  by_cases hat : a.ts_utc = t
  · rw [if_pos hat]
    exact List.find?_cons_of_pos _ (by simp [hat])
  · rw [if_neg hat]
    exact List.find?_cons_of_neg _ (by simp [hat])

theorem lookup_slim_congr (t : ℕ) :
    ∀ rs1 rs2 : List WeatherReading,
      rs1.map slimReading = rs2.map slimReading →
      (lookupReading rs1 t).map slimReading
        = (lookupReading rs2 t).map slimReading := by
  intro rs1
  induction rs1 with
  | nil =>
    intro rs2 h
    cases rs2 with
    | nil => rfl
    | cons b m => simp at h
  | cons a l ih =>
    intro rs2 h
    cases rs2 with
    | nil => simp at h
    | cons b m =>
      simp only [List.map_cons, List.cons.injEq] at h
      obtain ⟨hab, hlm⟩ := h
      have hts : a.ts_utc = b.ts_utc := congrArg Prod.fst hab
      rw [lookupReading_cons, lookupReading_cons]
      by_cases hat : a.ts_utc = t
      · rw [if_pos hat, if_pos (hts ▸ hat)]
        simpa using hab
      · rw [if_neg hat, if_neg (fun hbt => hat (hts ▸ hbt))]
        exact ih m hlm

theorem lookup_slim_cases (t : ℕ) (rs1 rs2 : List WeatherReading)
    (h : rs1.map slimReading = rs2.map slimReading) :
    (lookupReading rs1 t = none ∧ lookupReading rs2 t = none)
    ∨ ∃ r1 r2, lookupReading rs1 t = some r1 ∧ lookupReading rs2 t = some r2
        ∧ slimReading r1 = slimReading r2 := by
  have hl := lookup_slim_congr t rs1 rs2 h
  cases h1 : lookupReading rs1 t with
  | none =>
    cases h2 : lookupReading rs2 t with
    | none => exact Or.inl ⟨rfl, rfl⟩
    | some r2 =>
      rw [h1, h2] at hl
      exact absurd hl (by simp)
  | some r1 =>
    cases h2 : lookupReading rs2 t with
    | none =>
      rw [h1, h2] at hl
      exact absurd hl (by simp)
    | some r2 =>
      rw [h1, h2] at hl
      exact Or.inr ⟨r1, r2, rfl, rfl, by simpa using hl⟩

theorem findRecent_slim_congr (tmin : ℕ) (rs1 rs2 : List WeatherReading)
    (h : rs1.map slimReading = rs2.map slimReading) :
    ∀ fuel i,
      (findRecent rs1 tmin i fuel).map (fun q => (q.1, slimReading q.2))
        = (findRecent rs2 tmin i fuel).map (fun q => (q.1, slimReading q.2)) := by
  intro fuel
  induction fuel with
  | zero =>
    intro i
    rw [findRecent_fuel_zero, findRecent_fuel_zero]
    rcases lookup_slim_cases (tmin + 5 * i) rs1 rs2 h with
      ⟨h1, h2⟩ | ⟨r1, r2, h1, h2, hs⟩
    · rw [h1, h2]
    · rw [h1, h2]
      simp [hs]
  | succ f ih =>
    intro i
    cases i with
    | zero =>
      rw [findRecent_pos_zero, findRecent_pos_zero]
      rcases lookup_slim_cases (tmin + 5 * 0) rs1 rs2 h with
        ⟨h1, h2⟩ | ⟨r1, r2, h1, h2, hs⟩
      · rw [h1, h2]
      · rw [h1, h2]
        simp [hs]
    | succ i2 =>
      rw [findRecent_pos_succ, findRecent_pos_succ]
      rcases lookup_slim_cases (tmin + 5 * (i2 + 1)) rs1 rs2 h with
        ⟨h1, h2⟩ | ⟨r1, r2, h1, h2, hs⟩
      · rw [h1, h2]
        simpa using ih i2
      · rw [h1, h2]
        simp [hs]

theorem ffillSlot_cols_congr (tmin i : ℕ) (rs1 rs2 : List WeatherReading)
    (h : rs1.map slimReading = rs2.map slimReading) :
    slotCols (ffillSlot rs1 tmin i) = slotCols (ffillSlot rs2 tmin i) := by
  rcases lookup_slim_cases (tmin + 5 * i) rs1 rs2 h with
    ⟨h1, h2⟩ | ⟨r1, r2, h1, h2, hs⟩
  · have hf := findRecent_slim_congr tmin rs1 rs2 h 3 i
    cases hf1 : findRecent rs1 tmin i 3 with
    | none =>
      cases hf2 : findRecent rs2 tmin i 3 with
      | none => simp [ffillSlot, h1, h2, hf1, hf2, slotCols]
      | some q =>
        rw [hf1, hf2] at hf
        exact absurd hf (by simp)
    | some q1 =>
      cases hf2 : findRecent rs2 tmin i 3 with
      | none =>
        rw [hf1, hf2] at hf
        exact absurd hf (by simp)
      | some q2 =>
        rw [hf1, hf2] at hf
        obtain ⟨j1, r1⟩ := q1
        obtain ⟨j2, r2⟩ := q2
        have hjq : j1 = j2 ∧ slimReading r1 = slimReading r2 := by simpa using hf
        obtain ⟨rfl, hsr⟩ := hjq
        have ht : r1.temp_c = r2.temp_c := congrArg (fun q => q.2.1) hsr
        have hh : r1.rel_humidity_pct = r2.rel_humidity_pct :=
          congrArg (fun q => q.2.2) hsr
        simp [ffillSlot, h1, h2, hf1, hf2, slotCols, ht, hh]
  · have ht : r1.temp_c = r2.temp_c := congrArg (fun q => q.2.1) hs
    have hh : r1.rel_humidity_pct = r2.rel_humidity_pct :=
      congrArg (fun q => q.2.2) hs
    simp [ffillSlot, h1, h2, slotCols, ht, hh]

theorem grid_params_congr (rs1 rs2 : List WeatherReading)
    (h : rs1.map slimReading = rs2.map slimReading) :
    gridStart rs1 = gridStart rs2 ∧ gridStop rs1 = gridStop rs2
      ∧ gridLen rs1 = gridLen rs2 := by
  have hts : rs1.map (fun r => r.ts_utc) = rs2.map (fun r => r.ts_utc) := by
    have hc := congrArg (List.map (fun q : ℕ × ℚ × ℚ => q.1)) h
    simpa [List.map_map, Function.comp] using hc
  cases rs1 with
  | nil =>
    cases rs2 with
    | nil => exact ⟨rfl, rfl, rfl⟩
    | cons b m => simp at h
  | cons a l =>
    cases rs2 with
    | nil => simp at h
    | cons b m =>
      simp only [List.map_cons, List.cons.injEq] at hts
      obtain ⟨hab, hlm⟩ := hts
      have hstart : gridStart (a :: l) = gridStart (b :: m) := by
        show (l.map (fun x => x.ts_utc)).foldl min a.ts_utc
          = (m.map (fun x => x.ts_utc)).foldl min b.ts_utc
        rw [hab, hlm]
      have hstop : gridStop (a :: l) = gridStop (b :: m) := by
        show (l.map (fun x => x.ts_utc)).foldl max a.ts_utc
          = (m.map (fun x => x.ts_utc)).foldl max b.ts_utc
        rw [hab, hlm]
      refine ⟨hstart, hstop, ?_⟩
      show (gridStop (a :: l) - gridStart (a :: l)) / 5 + 1
        = (gridStop (b :: m) - gridStart (b :: m)) / 5 + 1
      rw [hstart, hstop]

theorem resample_cols_congr (rs1 rs2 : List WeatherReading)
    (h : rs1.map slimReading = rs2.map slimReading) :
    selectOutdoorCols (resampleOutdoor rs1)
      = selectOutdoorCols (resampleOutdoor rs2) := by
  obtain ⟨hstart, _, hlen⟩ := grid_params_congr rs1 rs2 h
  cases rs1 with
  | nil =>
    cases rs2 with
    | nil => rfl
    | cons b m => simp at h
  | cons a l =>
    cases rs2 with
    | nil => simp at h
    | cons b m =>
      have hpt : ∀ i : ℕ,
          (slotCols ∘ fun i => ffillSlot (a :: l) (gridStart (a :: l)) i) i
            = (slotCols ∘ fun i => ffillSlot (b :: m) (gridStart (b :: m)) i) i := by
        intro i
        show slotCols (ffillSlot (a :: l) (gridStart (a :: l)) i)
          = slotCols (ffillSlot (b :: m) (gridStart (b :: m)) i)
        rw [hstart]
        exact ffillSlot_cols_congr (gridStart (b :: m)) i (a :: l) (b :: m) h
      calc selectOutdoorCols (resampleOutdoor (a :: l))
          = (List.range (gridLen (a :: l))).map
              (slotCols ∘ fun i => ffillSlot (a :: l) (gridStart (a :: l)) i) := by
            simp [selectOutdoorCols, resampleOutdoor, List.map_map]
        _ = (List.range (gridLen (b :: m))).map
              (slotCols ∘ fun i => ffillSlot (b :: m) (gridStart (b :: m)) i) := by
            rw [hlen, map_eq_of_funext hpt]
        _ = selectOutdoorCols (resampleOutdoor (b :: m)) := by
            simp [selectOutdoorCols, resampleOutdoor, List.map_map]

/-- Claim C10: the outdoor values the join attaches depend only on the
indoor row's timestamp — two pivoted rows with equal timestamps, in any
building or room and with any indoor readings, receive identical
outdoor temperature, humidity and quality tag — and only on the
timestamp/temperature/humidity columns of the outdoor stream: latitude,
longitude (and wind speed) are never consulted. -/
theorem join_outdoor_ts_only (rs1 rs2 : List WeatherReading)
    (p1 p2 : IndoorPivotRow)
    (hr : rs1.map slimReading = rs2.map slimReading)
    (ht : p1.ts_utc = p2.ts_utc) :
    outdoorJoinFields (attachOutdoor (selectOutdoorCols (resampleOutdoor rs1)) p1)
      = outdoorJoinFields
          (attachOutdoor (selectOutdoorCols (resampleOutdoor rs2)) p2) := by
  rw [resample_cols_congr rs1 rs2 hr]
  unfold outdoorJoinFields attachOutdoor
  rw [ht]

theorem join_outdoor_ts_only_witness :
    outdoorJoinFields (attachOutdoor (selectOutdoorCols (resampleOutdoor
          [⟨0, 59, 18, 10, 60, 3⟩]))
        ⟨0, "building_A", "office_1", some 22, some 45, some 800, some 150⟩)
      = outdoorJoinFields (attachOutdoor (selectOutdoorCols (resampleOutdoor
          [⟨0, 40, 75, 10, 60, 9⟩]))
        ⟨0, "building_B", "lab_1", some 19, none, some 1200, none⟩) :=
  join_outdoor_ts_only _ _ _ _ (by decide) rfl

/-- Claim C9, amended: the Aligner and the Aggregator leave the row
sets passed to them unchanged — the aligner's one in-place operation,
re-parsing the outdoor timestamp column, rewrites each value with
itself on bronze input, and the aggregator only reads its input — and
so does the Writer on an empty row set or an unpartitioned write; but
the Writer called with date partitioning on a non-empty row set
mutates the caller's rows in place, adding the `year`/`month`/`day`
partition columns before grouping. -/
theorem stage_mutation_spec (rows : List PComfortRow)
    (outdoor : List WeatherReading) :
    reparseOutdoorTs outdoor = outdoor
    ∧ (write_partitioned_parquet rows false).1 = rows
    ∧ (rows = [] → (write_partitioned_parquet rows true).1 = rows)
    ∧ (rows ≠ [] →
        (write_partitioned_parquet rows true).1 = rows.map addPartitionCols) := by
  refine ⟨List.map_id' outdoor, ?_, ?_, ?_⟩
  · by_cases h : rows.isEmpty <;> simp [write_partitioned_parquet, h]
  · intro h
    subst h
    rfl
  · intro h
    have h2 : rows.isEmpty = false := by simpa using h
    simp [write_partitioned_parquet, h2]

theorem stage_mutation_spec_witness :
    (write_partitioned_parquet [examplePartRow] true).1
        = [examplePartRow].map addPartitionCols
    ∧ (write_partitioned_parquet [examplePartRow] false).1 = [examplePartRow] :=
  ⟨(stage_mutation_spec [examplePartRow] []).2.2.2 (by decide),
    (stage_mutation_spec [examplePartRow] []).2.1⟩

/-- Claim C9 counterexample: the Partitioned Writer does mutate a row
set passed to it — writing one comfort row partitioned by date adds the
`year`/`month`/`day` partition columns to the caller's DataFrame, so the
the post-call rows differ from the rows passed in. -/
theorem writer_mutates_input_counterexample :
    (write_partitioned_parquet [examplePartRow] true).1 ≠ [examplePartRow] := by
  decide

end HVAC

